import Mathlib

/-!
Verification of the cagent chat clients (`MultiTenant/AuthAgentChat.py` and
`MultiTenant/cagent_chat.py`) against their natural-language specification.

The Python code is shallowly embedded: network I/O is abstracted as the
outcome of each request (a parameter of the embedded function), the JSON
credentials file is modelled as a partial map from server URL to the stored
record, and the SSE dispatch loop becomes a recursive function over the list
of decoded events.
-/

namespace Cagent

/-- User profile as stored in the credentials file and held in memory
(`self.user`): the JSON object `{id, email, name, is_admin}`. -/
structure UserProfile where
  id : String
  email : String
  name : String
  is_admin : Bool
deriving DecidableEq, Repr

/-- One entry of `~/.cagent_auth.json`: `{'token': ..., 'user': ..., 'saved_at': ...}`
as written by `AuthAgentChat._save_credentials`.  `token`/`user` are `Option`
because the Python code stores whatever `self.token` / `self.user` hold,
which may be `None`. -/
structure StoredCred where
  token : Option String
  user : Option UserProfile
  saved_at : String
deriving DecidableEq, Repr

/-- The credentials file, keyed by server URL (`data[self.api_url]`); a JSON
object has at most one value per key, so the document is a partial map. -/
def CredsFile : Type := String → Option StoredCred

/-- Client state touched by the credential operations: `self.token`,
`self.user`, and the on-disk credentials document. -/
structure ClientState where
  token : Option String
  user : Option UserProfile
  store : CredsFile

/-- Model of `AuthAgentChat._save_credentials`: read the document, set
`data[api_url] = {'token': self.token, 'user': self.user, 'saved_at': now}`,
write it back.  The net effect on the key-value document is a pointwise
update of the `api_url` entry. -/
def save_credentials (file : CredsFile) (api_url : String)
    (token : Option String) (user : Option UserProfile) (now : String) : CredsFile :=
  fun k => if k = api_url then some ⟨token, user, now⟩ else file k

/-- Model of `AuthAgentChat._load_credentials`: if the document has an entry for
`api_url`, set `self.token = creds.get('token')` and
`self.user = creds.get('user')`; otherwise leave both fields as they were. -/
def load_credentials (file : CredsFile) (api_url : String)
    (token₀ : Option String) (user₀ : Option UserProfile) :
    Option String × Option UserProfile :=
  match file api_url with
  | some creds => (creds.token, creds.user)
  | none => (token₀, user₀)

/-- Model of `AuthAgentChat._clear_credentials`: set `self.token = None`,
`self.user = None`, and delete the `api_url` entry from the document
(`del data[self.api_url]` guarded by membership, which on the key-value
document is exactly: the `api_url` key maps to nothing, all others keep
their value). -/
def clear_credentials (api_url : String) (s : ClientState) : ClientState :=
  { token := none
    user := none
    store := fun k => if k = api_url then none else s.store k }

/-- Outcome of the unauthenticated probe `GET {api_url}/api/sessions` issued
by `AuthAgentChat._check_auth_enabled`: either a response with a status code,
or any raised exception (network error etc.). -/
inductive ProbeOutcome where
  | status (code : Nat)
  | exn (message : String)
deriving DecidableEq, Repr

/-- Model of `AuthAgentChat._check_auth_enabled`, lines 50-69: 401 or 403 → auth
enabled; 200 → disabled; any other status → disabled; any exception →
disabled. -/
def check_auth_enabled (probe : ProbeOutcome) : Bool :=
  match probe with
  | .status code =>
      if code = 401 || code = 403 then true
      else if code = 200 then false
      else false
  | .exn _ => false

/-- Token-usage record carried by a `token_usage` event's `usage` field
(the dispatcher reads `input_tokens`, `output_tokens`, `total_tokens`). -/
structure Usage where
  input_tokens : Nat
  output_tokens : Nat
  total_tokens : Nat
deriving DecidableEq, Repr

/-- Decoded protocol event: the `type` field of the JSON payload selects the
variant, with the payload fields the dispatch loop actually reads.  Types the
loop only prints (tool progress, warnings, shell output) carry their display
payload; anything else is `other`. -/
inductive ProtocolEvent where
  | agent_choice (content : String)
  | agent_choice_reasoning (content : String)
  | token_usage (usage : Usage)
  | tool_call (name : String)
  | partial_tool_call (name : String)
  | tool_call_response (name : String)
  | warning (message : String)
  | shell (output : String)
  | error (message : String)
  | other (tag : String)
deriving DecidableEq, Repr

/-- The response accumulator of `AuthAgentChat.send_message`:
`full_response = []` and `token_usage = {}` before the loop.  The falsy empty
dict / absent usage is modelled as `none`. -/
structure Accumulator where
  full_response : List String
  token_usage : Option Usage
deriving DecidableEq, Repr

/-- Initial accumulator (`full_response = []`, `token_usage = {}`). -/
def initAcc : Accumulator := ⟨[], none⟩

/-- Does the event terminate the dispatch loop (`elif event_type == 'error':
... break`)? -/
def isErrorEvent : ProtocolEvent → Bool
  | .error _ => true
  | _ => false

/-- Effect of one non-terminating event on the accumulator
(`AuthAgentChat.send_message`, lines 389-443): `agent_choice` appends its
content when non-empty (`if content:`), `token_usage` overwrites the usage
snapshot (`token_usage = data.get('usage', {})`), every other type only
produces display output. -/
def applyEvent (acc : Accumulator) : ProtocolEvent → Accumulator
  | .agent_choice content =>
      if content = "" then acc
      else { acc with full_response := acc.full_response ++ [content] }
  | .token_usage u => { acc with token_usage := some u }
  | _ => acc

/-- The dispatch loop over the decoded events, in arrival order: stops at the
first `error` event (the `break`), otherwise folds `applyEvent`. -/
def dispatchEvents : List ProtocolEvent → Accumulator → Accumulator
  | [], acc => acc
  | e :: rest, acc =>
      if isErrorEvent e then acc
      else dispatchEvents rest (applyEvent acc e)

/-- Finalization: `''.join(full_response)` (the `cagent_chat` variant joins
explicitly; the `AuthAgentChat` variant prints the same parts in order). -/
def finalText (acc : Accumulator) : String := String.join acc.full_response

/-- A data line fed to the decoder, abstracting the outcome of `json.loads`
on its payload (a library call): either the payload parses to an event, or
it raises `json.JSONDecodeError`. -/
inductive DataLine where
  | parsed (e : ProtocolEvent)
  | malformed (raw : String)
deriving DecidableEq, Repr

/-- Decoder + dispatcher over raw data lines: a malformed payload is skipped
(`except json.JSONDecodeError: ...` continues the loop), a parsed event is
dispatched as in `dispatchEvents`. -/
def processLines : List DataLine → Accumulator → Accumulator
  | [], acc => acc
  | .malformed _ :: rest, acc => processLines rest acc
  | .parsed e :: rest, acc =>
      if isErrorEvent e then acc
      else processLines rest (applyEvent acc e)

/-- Spec-side (from the claim's words): the content fields of all
`agent_choice` events, in arrival order. -/
def choiceContents (es : List ProtocolEvent) : List String :=
  es.filterMap fun e =>
    match e with
    | .agent_choice c => some c
    | _ => none

/-- Spec-side: concatenation of the content fields of all `agent_choice`
events, in arrival order. -/
def allChoiceText (es : List ProtocolEvent) : String :=
  String.join (choiceContents es)

/-- Spec-side: the usage field of the last `token_usage` event of the list,
`none` when there is none (last write wins). -/
def lastUsage : List ProtocolEvent → Option Usage
  | [] => none
  | .token_usage u :: rest =>
      match lastUsage rest with
      | some v => some v
      | none => some u
  | _ :: rest => lastUsage rest

/-- The events the dispatch loop actually consumes: the prefix before the
first `error` event. -/
def beforeError (es : List ProtocolEvent) : List ProtocolEvent :=
  es.takeWhile (fun e => !isErrorEvent e)

/-- The empty strings of a list of text parts, removed (an `agent_choice`
with empty content is not appended by the loop, and contributes nothing to
the joined text). -/
def dropEmpty : List String → List String
  | [] => []
  | c :: rest => if c = "" then dropEmpty rest else c :: dropEmpty rest

/-- Last-write-wins combination of a newer optional usage snapshot with an
older one. -/
def lastWrite (newer older : Option Usage) : Option Usage :=
  match newer with
  | some u => some u
  | none => older

/-- Outcome of one initiating `requests.post(.../agent/{agent}, timeout=t)`
in `AuthAgentChat.send_message`: success (2xx, streaming begins), a raised
`requests.exceptions.Timeout`, a raised `HTTPError` with the response's
status code (from `raise_for_status`), or any other raised exception. -/
inductive AttemptOutcome where
  | success
  | timeout
  | httpError (status : Nat)
  | requestError
deriving DecidableEq, Repr

/-- How the initiating phase of `send_message` ends: `streaming` = the loop
was left via `break` and the SSE body is consumed next; `gaveUpTimeout` =
the final-attempt timeout message and `return`; `authExpired` = the 401
branch; `httpFailed` = any other `HTTPError`; `sendFailed` = the generic
exception branch; `noAttempt` = the `while` guard was false at entry (the
loop body never ran). -/
inductive SendResult where
  | streaming
  | gaveUpTimeout
  | authExpired
  | httpFailed (status : Nat)
  | sendFailed
  | noAttempt
deriving DecidableEq, Repr

/-- Result of the initiating phase: how it ended, the timeout value passed
to each attempt in order, and the client state afterwards. -/
structure SendOutcome where
  result : SendResult
  timeoutsUsed : List Nat
  state : ClientState

/-- The retry loop of `AuthAgentChat.send_message`, lines 337-372.
`transport attempt t` abstracts the outcome of the initiating POST on the
given 0-based attempt with timeout `t`.  The source's
`while retry_count < max_retries` loop is encoded structurally on
`remaining = max_retries - retry_count`: the guard `retry_count <
max_retries` is `remaining ≠ 0`, and the inner test
`retry_count + 1 < max_retries` (retry vs. give up after a timeout) is the
`r + 1` match on `remaining - 1` below.  Only the timeout branch loops; a
401 runs `self._clear_credentials()` and returns; every other failure
returns at once.  `timeout_seconds` is fixed before the loop and never
changed. -/
def sendRetryGo (transport : Nat → Nat → AttemptOutcome) (timeout_seconds : Nat)
    (api_url : String) (s : ClientState) :
    Nat → Nat → List Nat → SendOutcome
  | _, 0, trace => ⟨.noAttempt, trace, s⟩
  | retry_count, remaining + 1, trace =>
      match transport retry_count timeout_seconds with
      | .success => ⟨.streaming, trace ++ [timeout_seconds], s⟩
      | .timeout =>
          match remaining with
          | 0 => ⟨.gaveUpTimeout, trace ++ [timeout_seconds], s⟩
          | r + 1 =>
              sendRetryGo transport timeout_seconds api_url s
                (retry_count + 1) (r + 1) (trace ++ [timeout_seconds])
      | .httpError status =>
          if status = 401 then
            ⟨.authExpired, trace ++ [timeout_seconds], clear_credentials api_url s⟩
          else ⟨.httpFailed status, trace ++ [timeout_seconds], s⟩
      | .requestError => ⟨.sendFailed, trace ++ [timeout_seconds], s⟩

/-- The initiating phase of `send_message`: `max_retries = 3`,
`retry_count = 0`, `timeout_seconds = self.timeout`. -/
def send_message_init (transport : Nat → Nat → AttemptOutcome)
    (timeout_seconds : Nat) (api_url : String) (s : ClientState) : SendOutcome :=
  sendRetryGo transport timeout_seconds api_url s 0 3 []

/-- Reply to `POST /api/auth/register`: a 200 with the parsed
`{token, user}` payload (either field may be absent, `data.get`), any
non-200 with its `message` field, or a raised exception. -/
inductive AuthReply where
  | ok (token : Option String) (user : Option UserProfile)
  | err (message : String)
  | exn (message : String)
deriving DecidableEq, Repr

/-- How `AuthAgentChat.register` ends, tagged by the message it prints:
the two local validation failures, success, a server rejection, or the
exception branch. -/
inductive RegisterOutcome where
  | passwordMismatch
  | weakPassword
  | registered
  | rejected (message : String)
  | registerError (message : String)
deriving DecidableEq, Repr

/-- Outcome of `register` plus how many network requests it issued. -/
structure RegisterTrace where
  outcome : RegisterOutcome
  networkCalls : Nat
deriving DecidableEq, Repr

/-- Model of `AuthAgentChat.register`, lines 135-176: first `if password != confirm`
fails, then `if len(password) < 8` fails — both before the POST.  On a 200
the client keeps the returned token and user and saves them
(`self._save_credentials()`); otherwise the state is unchanged. -/
def register (password confirm : String) (reply : AuthReply)
    (now api_url : String) (s : ClientState) : RegisterTrace × ClientState :=
  if password ≠ confirm then (⟨.passwordMismatch, 0⟩, s)
  else if password.length < 8 then (⟨.weakPassword, 0⟩, s)
  else
    match reply with
    | .ok token user =>
        (⟨.registered, 1⟩,
          { token := token, user := user,
            store := save_credentials s.store api_url token user now })
    | .err m => (⟨.rejected m, 1⟩, s)
    | .exn m => (⟨.registerError m, 1⟩, s)

/-- Python `str.endswith`: the suffix's characters are a suffix of the
string's characters. -/
def pyEndsWith (s suffix : String) : Bool :=
  List.isSuffixOf suffix.data s.data

/-- One entry of the `GET /api/agents` catalog: a JSON object with optional
`name` and `path` fields, or a bare string. -/
inductive CatalogEntry where
  | obj (name : Option String) (path : Option String)
  | str (s : String)
deriving DecidableEq, Repr

/-- Model of `AuthAgentChat.verify_agent`, lines 264-272: for a dict entry,
`name = agent.get('name') or agent.get('path', '')` (Python `or` falls
through on `None` and `''`) followed by `if name:` — an entry with neither
field contributes nothing; a non-dict entry is appended as is. -/
def entryName : CatalogEntry → Option String
  | .obj name path =>
      let n :=
        match name with
        | some s => if s = "" then path.getD "" else s
        | none => path.getD ""
      if n = "" then none else some n
  | .str s => some s

/-- The `agent_names` list built by `verify_agent`, in catalog order. -/
def agentNames (catalog : List CatalogEntry) : List String :=
  catalog.filterMap entryName

/-- Model of `agent_check = self.agent_yaml; if not agent_check.endswith('.yaml'):
agent_check += '.yaml'`. -/
def normalizeAgent (agent_yaml : String) : String :=
  if pyEndsWith agent_yaml ".yaml" then agent_yaml else agent_yaml ++ ".yaml"

/-- Result of `verify_agent`: verified, or the not-found failure with the
name it printed and the full `agent_names` list it displayed. -/
inductive VerifyResult where
  | verified
  | notFound (tried : String) (available : List String)
deriving DecidableEq, Repr

/-- Model of `AuthAgentChat.verify_agent`, lines 252-290, with the catalog fetch
abstracted to its parsed payload: membership of the normalized name in
`agent_names` decides success; on failure the error output names the
un-normalized agent and lists every available name. -/
def verify_agent (agent_yaml : String) (catalog : List CatalogEntry) : VerifyResult :=
  let agent_names := agentNames catalog
  let agent_check := normalizeAgent agent_yaml
  if agent_check ∈ agent_names then .verified
  else .notFound agent_yaml agent_names

/-- Model of `AuthAgentChat.main`, lines 694-697: append `.yaml` unless the given
name already ends with `.yaml` or `.yml`. -/
def authNormalizeAgent (agent : String) : String :=
  if !(pyEndsWith agent ".yaml") && !(pyEndsWith agent ".yml") then
    agent ++ ".yaml"
  else agent

/-- Python `str.replace(pat, '')` on character lists: remove every
leftmost-first, non-overlapping occurrence of `pat`.  Fuel-based structural
recursion; `fuel = s.length` always suffices because a match consumes at
least one character when `pat` is non-empty. -/
def replaceAllGo (pat : List Char) : Nat → List Char → List Char
  | _, [] => []
  | 0, s => s
  | fuel + 1, c :: rest =>
      if pat ≠ [] ∧ pat.isPrefixOf (c :: rest) then
        replaceAllGo pat fuel ((c :: rest).drop pat.length)
      else c :: replaceAllGo pat fuel rest

/-- Python `s.replace(pat, '')`. -/
def replaceAll (pat : List Char) (s : List Char) : List Char :=
  replaceAllGo pat s.length s

/-- Model of `CagentChatClient.__init__`, line 31:
`self.agent_name = agent_name.replace('.yaml', '')` — the name the client
holds and later interpolates into the message-send URL path. -/
def cagentHeldName (agent_name : String) : String :=
  String.mk (replaceAll ".yaml".data agent_name.data)

/-- A concrete store used to witness the frame property. -/
def sampleState : ClientState :=
  { token := some "tokA"
    user := some ⟨"1", "a@x", "A", false⟩
    store := fun k =>
      if k = "https://b" then some ⟨some "tokB", none, "2026-01-01"⟩ else none }

/-- A transport whose first two attempts time out and whose third succeeds. -/
def twoTimeoutsThenSuccess : Nat → Nat → AttemptOutcome :=
  fun attempt _ => if attempt < 2 then .timeout else .success

/-- A transport that answers HTTP 401 to every initiating request. -/
def always401 : Nat → Nat → AttemptOutcome :=
  fun _ _ => .httpError 401

/-- A catalog containing `pirate.yaml` (as a dict entry) next to another
agent. -/
def pirateCatalog : List CatalogEntry :=
  [CatalogEntry.obj (some "pirate.yaml") none, CatalogEntry.str "haiku.yaml"]

/-- A catalog without `pirate.yaml`. -/
def otherCatalog : List CatalogEntry := [CatalogEntry.str "haiku.yaml"]

end Cagent

namespace Cagent

/-- C6: the probe reports "auth required" iff the unauthenticated GET of
`/api/sessions` returned 401 or 403; 200, every other status, and every
transport error all report "not required". -/
theorem check_auth_enabled_iff_401_or_403 (probe : ProbeOutcome) :
    check_auth_enabled probe = true ↔
      (probe = .status 401 ∨ probe = .status 403) := by
  cases probe with
  | status code =>
      constructor
      · intro h
        simp only [check_auth_enabled] at h
        by_cases h401 : code = 401
        · exact Or.inl (by rw [h401])
        · by_cases h403 : code = 403
          · exact Or.inr (by rw [h403])
          · simp [h401, h403] at h
      · rintro (h | h) <;> (cases h; simp [check_auth_enabled])
  | exn m =>
      simp [check_auth_enabled]

/-- C9: loading credentials for `server_url` immediately after saving a
credential under the same `server_url` returns that credential's token and
user, whatever the rest of the store holds and whatever the in-memory fields
held before. -/
theorem load_after_save_roundtrip (file : CredsFile) (api_url : String)
    (token : Option String) (user : Option UserProfile) (now : String)
    (token₀ : Option String) (user₀ : Option UserProfile) :
    load_credentials (save_credentials file api_url token user now) api_url token₀ user₀ =
      (token, user) := by
  simp [load_credentials, save_credentials]

/-- C10: clearing credentials nulls the in-memory token and user, deletes the
`api_url` entry of the store, and leaves every other server URL's entry
unchanged. -/
theorem clear_credentials_frame (api_url : String) (s : ClientState) :
    (clear_credentials api_url s).token = none ∧
    (clear_credentials api_url s).user = none ∧
    (clear_credentials api_url s).store api_url = none ∧
    (∀ k, k ≠ api_url → (clear_credentials api_url s).store k = s.store k) := by
  refine ⟨rfl, rfl, by simp [clear_credentials], ?_⟩
  intro k hk
  simp [clear_credentials, hk]

/-- Witness for C10 at a concrete state: clearing `https://a` leaves the
`https://b` entry intact. -/
theorem clear_credentials_frame_witness :
    (clear_credentials "https://a" sampleState).store "https://b" =
      sampleState.store "https://b" :=
  (clear_credentials_frame "https://a" sampleState).2.2.2 "https://b" (by decide)

/-- Joining a list of parts ignores its empty strings. -/
theorem join_dropEmpty (l : List String) :
    String.join (dropEmpty l) = String.join l := by
  apply String.ext
  induction l with
  | nil => rfl
  | cons c r ih =>
      by_cases hc : c = ""
      · subst hc
        simpa [dropEmpty] using ih
      · simp only [dropEmpty, if_neg hc, String.data_join, List.map_cons,
          List.flatten_cons] at ih ⊢
        rw [ih]

/-- The text parts accumulated by the dispatch loop are the non-empty
`agent_choice` contents of the prefix before the first `error` event,
appended to whatever was already accumulated. -/
theorem dispatchEvents_full_response (es : List ProtocolEvent) :
    ∀ acc, (dispatchEvents es acc).full_response =
      acc.full_response ++ dropEmpty (choiceContents (beforeError es)) := by
  induction es with
  | nil => intro acc; simp [dispatchEvents, beforeError, choiceContents, dropEmpty]
  | cons e rest ih =>
      intro acc
      cases e with
      | agent_choice c =>
          by_cases hc : c = ""
          · subst hc
            simpa [dispatchEvents, isErrorEvent, applyEvent, beforeError,
              choiceContents, dropEmpty] using ih acc
          · simpa [dispatchEvents, isErrorEvent, applyEvent, hc, beforeError,
              choiceContents, dropEmpty] using
              ih { acc with full_response := acc.full_response ++ [c] }
      | error m =>
          simp [dispatchEvents, isErrorEvent, beforeError, choiceContents, dropEmpty]
      | agent_choice_reasoning c =>
          simpa [dispatchEvents, isErrorEvent, applyEvent, beforeError,
            choiceContents] using ih acc
      | token_usage u =>
          simpa [dispatchEvents, isErrorEvent, applyEvent, beforeError,
            choiceContents] using ih { acc with token_usage := some u }
      | tool_call n =>
          simpa [dispatchEvents, isErrorEvent, applyEvent, beforeError,
            choiceContents] using ih acc
      | partial_tool_call n =>
          simpa [dispatchEvents, isErrorEvent, applyEvent, beforeError,
            choiceContents] using ih acc
      | tool_call_response n =>
          simpa [dispatchEvents, isErrorEvent, applyEvent, beforeError,
            choiceContents] using ih acc
      | warning m =>
          simpa [dispatchEvents, isErrorEvent, applyEvent, beforeError,
            choiceContents] using ih acc
      | shell o =>
          simpa [dispatchEvents, isErrorEvent, applyEvent, beforeError,
            choiceContents] using ih acc
      | other t =>
          simpa [dispatchEvents, isErrorEvent, applyEvent, beforeError,
            choiceContents] using ih acc

/-- The usage snapshot after the dispatch loop is the last `token_usage`
before the first `error` event, falling back to what was already recorded. -/
theorem dispatchEvents_token_usage (es : List ProtocolEvent) :
    ∀ acc, (dispatchEvents es acc).token_usage =
      lastWrite (lastUsage (beforeError es)) acc.token_usage := by
  induction es with
  | nil => intro acc; simp [dispatchEvents, beforeError, lastUsage, lastWrite]
  | cons e rest ih =>
      intro acc
      cases e with
      | token_usage u =>
          have h := ih { acc with token_usage := some u }
          have hl : lastUsage (ProtocolEvent.token_usage u :: beforeError rest) =
              lastWrite (lastUsage (beforeError rest)) (some u) := rfl
          show (dispatchEvents rest { acc with token_usage := some u }).token_usage =
            lastWrite (lastUsage (ProtocolEvent.token_usage u :: beforeError rest))
              acc.token_usage
          rw [h, hl]
          cases hv : lastUsage (beforeError rest) <;> simp [lastWrite, hv]
      | error m =>
          simp [dispatchEvents, isErrorEvent, beforeError, lastUsage, lastWrite]
      | agent_choice c =>
          by_cases hc : c = ""
          · subst hc
            simpa [dispatchEvents, isErrorEvent, applyEvent, beforeError,
              lastUsage] using ih acc
          · simpa [dispatchEvents, isErrorEvent, applyEvent, hc, beforeError,
              lastUsage] using
              ih { acc with full_response := acc.full_response ++ [c] }
      | agent_choice_reasoning c =>
          simpa [dispatchEvents, isErrorEvent, applyEvent, beforeError,
            lastUsage] using ih acc
      | tool_call n =>
          simpa [dispatchEvents, isErrorEvent, applyEvent, beforeError,
            lastUsage] using ih acc
      | partial_tool_call n =>
          simpa [dispatchEvents, isErrorEvent, applyEvent, beforeError,
            lastUsage] using ih acc
      | tool_call_response n =>
          simpa [dispatchEvents, isErrorEvent, applyEvent, beforeError,
            lastUsage] using ih acc
      | warning m =>
          simpa [dispatchEvents, isErrorEvent, applyEvent, beforeError,
            lastUsage] using ih acc
      | shell o =>
          simpa [dispatchEvents, isErrorEvent, applyEvent, beforeError,
            lastUsage] using ih acc
      | other t =>
          simpa [dispatchEvents, isErrorEvent, applyEvent, beforeError,
            lastUsage] using ih acc

/-- C1 counterexample: fed `[error "boom", agent_choice "x"]`, the dispatcher
finalizes to `""`, not to the concatenation `"x"` of all `agent_choice`
contents — the loop breaks at the `error` event, so the claim as stated
(over every decoded event stream) is false. -/
theorem dispatch_all_choices_counterexample :
    ¬ (finalText (dispatchEvents
          [ProtocolEvent.error "boom", ProtocolEvent.agent_choice "x"] initAcc) =
        allChoiceText [ProtocolEvent.error "boom", ProtocolEvent.agent_choice "x"]) := by
  decide

/-- C1 (amended): for every decoded event stream, the dispatcher's finalized
result is the concatenation, in arrival order, of the content fields of the
`agent_choice` events preceding the first `error` event (all of them when no
`error` occurs), paired with the usage field of the last `token_usage` event
preceding the first `error` event (`none` when there is none); duplicate
`token_usage` events are tolerated, last write winning. -/
theorem dispatch_finalizes_prefix_before_error (es : List ProtocolEvent) :
    finalText (dispatchEvents es initAcc) = allChoiceText (beforeError es) ∧
    (dispatchEvents es initAcc).token_usage = lastUsage (beforeError es) := by
  constructor
  · rw [finalText, dispatchEvents_full_response es initAcc]
    show String.join ([] ++ dropEmpty (choiceContents (beforeError es))) = _
    rw [List.nil_append, join_dropEmpty, allChoiceText]
  · rw [dispatchEvents_token_usage es initAcc]
    cases h : lastUsage (beforeError es) with
    | none => simp [lastWrite, initAcc]
    | some u => simp [lastWrite]

/-- C2: a data line whose payload fails to parse as JSON is skipped wherever
it occurs — the decoded stream behaves exactly as if the line were absent —
and in particular a valid `token_usage` event arriving right after a
malformed line is still captured in the usage snapshot. -/
theorem malformed_line_skipped :
    (∀ (xs ys : List DataLine) (raw : String) (acc : Accumulator),
        processLines (xs ++ DataLine.malformed raw :: ys) acc =
          processLines (xs ++ ys) acc) ∧
    (∀ (raw : String) (u : Usage),
        (processLines
            [DataLine.malformed raw, DataLine.parsed (ProtocolEvent.token_usage u)]
            initAcc).token_usage = some u) := by
  constructor
  · intro xs
    induction xs with
    | nil => intro ys raw acc; simp [processLines]
    | cons x rest ih =>
        intro ys raw acc
        cases x with
        | malformed r => simpa [processLines] using ih ys raw acc
        | parsed e =>
            by_cases he : isErrorEvent e = true
            · simp [processLines, he]
            · simp only [List.cons_append, processLines, he, if_false,
                Bool.false_eq_true]
              exact ih ys raw (applyEvent acc e)
  · intro raw u
    rfl

/-- The retry loop performs at most `remaining` further attempts. -/
theorem sendRetryGo_length_le (transport : Nat → Nat → AttemptOutcome)
    (t : Nat) (url : String) (s : ClientState) :
    ∀ (remaining retry_count : Nat) (trace : List Nat),
      (sendRetryGo transport t url s retry_count remaining trace).timeoutsUsed.length ≤
        trace.length + remaining := by
  intro remaining
  induction remaining with
  | zero => intro rc trace; simp [sendRetryGo]
  | succ r ih =>
      intro rc trace
      cases r with
      | zero =>
          cases h : transport rc t with
          | success => simp [sendRetryGo.eq_2, h]
          | timeout => simp [sendRetryGo.eq_2, h]
          | httpError status =>
              by_cases h401 : status = 401 <;> simp [sendRetryGo.eq_2, h, h401]
          | requestError => simp [sendRetryGo.eq_2, h]
      | succ r' =>
          cases h : transport rc t with
          | success => simp [sendRetryGo.eq_3, h]
          | timeout =>
              have hih := ih (rc + 1) (trace ++ [t])
              simp only [sendRetryGo.eq_3, h, List.length_append,
                List.length_cons, List.length_nil] at hih ⊢
              omega
          | httpError status =>
              by_cases h401 : status = 401 <;> simp [sendRetryGo.eq_3, h, h401]
          | requestError => simp [sendRetryGo.eq_3, h]

/-- Every timeout value the retry loop passes to an attempt is the one fixed
before the loop. -/
theorem sendRetryGo_timeouts_eq (transport : Nat → Nat → AttemptOutcome)
    (t : Nat) (url : String) (s : ClientState) :
    ∀ (remaining retry_count : Nat) (trace : List Nat),
      (∀ x ∈ trace, x = t) →
      ∀ x ∈ (sendRetryGo transport t url s retry_count remaining trace).timeoutsUsed,
        x = t := by
  intro remaining
  induction remaining with
  | zero =>
      intro rc trace htr x hx
      exact htr x (by simpa [sendRetryGo] using hx)
  | succ r ih =>
      intro rc trace htr
      have htr' : ∀ x ∈ trace ++ [t], x = t := by
        intro y hy
        rcases List.mem_append.mp hy with h | h
        · exact htr y h
        · simpa using h
      cases r with
      | zero =>
          cases h : transport rc t with
          | success => rw [sendRetryGo.eq_2, h]; exact htr'
          | timeout => rw [sendRetryGo.eq_2, h]; exact htr'
          | httpError status =>
              by_cases h401 : status = 401
              · rw [sendRetryGo.eq_2, h]; simp only [if_pos h401]; exact htr'
              · rw [sendRetryGo.eq_2, h]; simp only [if_neg h401]; exact htr'
          | requestError => rw [sendRetryGo.eq_2, h]; exact htr'
      | succ r' =>
          cases h : transport rc t with
          | success => rw [sendRetryGo.eq_3, h]; exact htr'
          | timeout =>
              rw [sendRetryGo.eq_3, h]
              exact ih (rc + 1) (trace ++ [t]) htr'
          | httpError status =>
              by_cases h401 : status = 401
              · rw [sendRetryGo.eq_3, h]; simp only [if_pos h401]; exact htr'
              · rw [sendRetryGo.eq_3, h]; simp only [if_neg h401]; exact htr'
          | requestError => rw [sendRetryGo.eq_3, h]; exact htr'

/-- C3: only a timeout of the initiating request is retried, with the same
timeout value reused each attempt and at most `max_retries = 3` attempts in
total; two timeouts followed by a success yield success after exactly 3
attempts, while a first-attempt success uses 1 attempt and any non-timeout
error or HTTP error status aborts after exactly 1 attempt. -/
theorem send_message_retry_policy (transport : Nat → Nat → AttemptOutcome)
    (t : Nat) (url : String) (s : ClientState) :
    (transport 0 t = .timeout → transport 1 t = .timeout → transport 2 t = .success →
      (send_message_init transport t url s).result = .streaming ∧
      (send_message_init transport t url s).timeoutsUsed = [t, t, t]) ∧
    (transport 0 t = .success →
      (send_message_init transport t url s).result = .streaming ∧
      (send_message_init transport t url s).timeoutsUsed = [t]) ∧
    (∀ status, transport 0 t = .httpError status →
      (send_message_init transport t url s).timeoutsUsed = [t] ∧
      ((send_message_init transport t url s).result = .authExpired ∨
        (send_message_init transport t url s).result = .httpFailed status)) ∧
    (transport 0 t = .requestError →
      (send_message_init transport t url s).result = .sendFailed ∧
      (send_message_init transport t url s).timeoutsUsed = [t]) ∧
    (send_message_init transport t url s).timeoutsUsed.length ≤ 3 ∧
    (∀ x ∈ (send_message_init transport t url s).timeoutsUsed, x = t) := by
  refine ⟨?_, ?_, ?_, ?_, ?_, ?_⟩
  · intro h0 h1 h2
    constructor <;> simp [send_message_init, sendRetryGo, h0, h1, h2]
  · intro h0
    constructor <;> simp [send_message_init, sendRetryGo, h0]
  · intro status h0
    by_cases h401 : status = 401 <;>
      constructor <;>
        simp [send_message_init, sendRetryGo, h0, h401]
  · intro h0
    constructor <;> simp [send_message_init, sendRetryGo, h0]
  · simpa using sendRetryGo_length_le transport t url s 3 0 []
  · exact sendRetryGo_timeouts_eq transport t url s 3 0 [] (by simp)

/-- Witness for C3: with the concrete transport that times out twice and
then succeeds, `send_message` returns success after exactly the 3 attempts,
each issued with the same 120s timeout. -/
theorem send_message_retry_policy_witness :
    (send_message_init twoTimeoutsThenSuccess 120 "https://a" sampleState).result =
        SendResult.streaming ∧
    (send_message_init twoTimeoutsThenSuccess 120 "https://a" sampleState).timeoutsUsed =
        [120, 120, 120] :=
  (send_message_retry_policy twoTimeoutsThenSuccess 120 "https://a" sampleState).1
    (by decide) (by decide) (by decide)

/-- C4: an HTTP 401 on the initiating request clears the in-memory token and
user and deletes the store entry for this server, surfaces the
authentication-expired failure, and performs no retry (exactly one
attempt). -/
theorem send_message_401_clears_credentials (transport : Nat → Nat → AttemptOutcome)
    (t : Nat) (url : String) (s : ClientState)
    (h : transport 0 t = .httpError 401) :
    (send_message_init transport t url s).result = .authExpired ∧
    (send_message_init transport t url s).timeoutsUsed = [t] ∧
    (send_message_init transport t url s).state.token = none ∧
    (send_message_init transport t url s).state.user = none ∧
    (send_message_init transport t url s).state.store url = none := by
  refine ⟨?_, ?_, ?_, ?_, ?_⟩ <;>
    simp [send_message_init, sendRetryGo, h, clear_credentials]

/-- Witness for C4 at a concrete transport and state. -/
theorem send_message_401_witness :
    (send_message_init always401 120 "https://a" sampleState).result =
        SendResult.authExpired ∧
    (send_message_init always401 120 "https://a" sampleState).timeoutsUsed = [120] ∧
    (send_message_init always401 120 "https://a" sampleState).state.token = none ∧
    (send_message_init always401 120 "https://a" sampleState).state.user = none ∧
    (send_message_init always401 120 "https://a" sampleState).state.store "https://a" =
        none :=
  send_message_401_clears_credentials always401 120 "https://a" sampleState rfl

/-- C5: `register` fails locally on a password/confirm mismatch and on a
matching password shorter than 8 characters, in that order, issuing no
network request in either case (the mismatch message wins when both
violations hold). -/
theorem register_validates_locally (password confirm : String) (reply : AuthReply)
    (now api_url : String) (s : ClientState) :
    (password ≠ confirm →
      register password confirm reply now api_url s =
        (⟨RegisterOutcome.passwordMismatch, 0⟩, s)) ∧
    (password = confirm → password.length < 8 →
      register password confirm reply now api_url s =
        (⟨RegisterOutcome.weakPassword, 0⟩, s)) ∧
    (password ≠ confirm → password.length < 8 →
      (register password confirm reply now api_url s).1.outcome =
        RegisterOutcome.passwordMismatch) := by
  refine ⟨?_, ?_, ?_⟩
  · intro h
    simp [register, h]
  · intro he hl
    subst he
    simp [register, hl]
  · intro h _
    simp [register, h]

/-- Witness for C5: a mismatch and a short password each fail locally with
zero network calls. -/
theorem register_validates_locally_witness :
    register "short" "different" (AuthReply.ok none none) "2026-01-01" "https://a"
        sampleState =
      (⟨RegisterOutcome.passwordMismatch, 0⟩, sampleState) ∧
    register "short" "short" (AuthReply.ok none none) "2026-01-01" "https://a"
        sampleState =
      (⟨RegisterOutcome.weakPassword, 0⟩, sampleState) :=
  ⟨(register_validates_locally "short" "different" (AuthReply.ok none none)
      "2026-01-01" "https://a" sampleState).1 (by decide),
   (register_validates_locally "short" "short" (AuthReply.ok none none)
      "2026-01-01" "https://a" sampleState).2.1 rfl (by decide)⟩

/-- C7: `verify_agent` matches the name with `.yaml` appended when the
suffix is absent, so `"pirate"` succeeds against any catalog listing
`"pirate.yaml"`; when the normalized name has no match the failure carries
the tried name and the full list of available agent names. -/
theorem verify_agent_normalization (catalog : List CatalogEntry) :
    (∀ a, pyEndsWith a ".yaml" = false → normalizeAgent a = a ++ ".yaml") ∧
    ("pirate.yaml" ∈ agentNames catalog →
      verify_agent "pirate" catalog = VerifyResult.verified) ∧
    (∀ a, normalizeAgent a ∉ agentNames catalog →
      verify_agent a catalog = VerifyResult.notFound a (agentNames catalog)) := by
  refine ⟨?_, ?_, ?_⟩
  · intro a h
    simp [normalizeAgent, h]
  · intro h
    have hnorm : normalizeAgent "pirate" = "pirate.yaml" := by decide
    simp [verify_agent, hnorm, h]
  · intro a ha
    simp [verify_agent, ha]

/-- Witness for C7: `"pirate"` verifies against a catalog holding
`"pirate.yaml"`, and against one without it the failure lists the available
names. -/
theorem verify_agent_normalization_witness :
    verify_agent "pirate" pirateCatalog = VerifyResult.verified ∧
    verify_agent "pirate" otherCatalog =
      VerifyResult.notFound "pirate" (agentNames otherCatalog) :=
  ⟨(verify_agent_normalization pirateCatalog).2.1 (by decide),
   (verify_agent_normalization otherCatalog).2.2 "pirate" (by decide)⟩

/-- A string obtained by appending `b` ends with `b`. -/
theorem pyEndsWith_append (a b : String) : pyEndsWith (a ++ b) b = true := by
  simp only [pyEndsWith, String.data_append]
  simp [List.isSuffixOf_iff_suffix.mpr (List.suffix_append a.data b.data)]

/-- C8 counterexample: `CagentChatClient` strips `.yaml` instead of keeping
it — constructed with `"pirate.yaml"`, the name it holds (and interpolates
into the message-send URL) is `"pirate"`, which does not end in `".yaml"`. -/
theorem cagent_name_strips_yaml_counterexample :
    ¬ (pyEndsWith (cagentHeldName "pirate.yaml") ".yaml" = true) := by decide

/-- C8 (amended): in the `AuthAgentChat` variant the resolved agent name
always ends in `".yaml"` or `".yml"` — `".yaml"` is appended exactly when
neither suffix is present — while the `CagentChatClient` variant instead
holds the requested name with every `".yaml"` occurrence removed (for
`"pirate.yaml"` it holds `"pirate"`) and uses that stripped name in the
message-send URL path. -/
theorem agent_name_normalization (agent : String) :
    (pyEndsWith agent ".yaml" = false → pyEndsWith agent ".yml" = false →
      authNormalizeAgent agent = agent ++ ".yaml") ∧
    (pyEndsWith (authNormalizeAgent agent) ".yaml" = true ∨
      pyEndsWith (authNormalizeAgent agent) ".yml" = true) ∧
    cagentHeldName "pirate.yaml" = "pirate" := by
  refine ⟨?_, ?_, by decide⟩
  · intro h1 h2
    simp [authNormalizeAgent, h1, h2]
  · by_cases h1 : pyEndsWith agent ".yaml" = true
    · left
      simp [authNormalizeAgent, h1]
    · by_cases h2 : pyEndsWith agent ".yml" = true
      · right
        simp [authNormalizeAgent, h2]
      · left
        have hb1 : pyEndsWith agent ".yaml" = false := by
          simpa using h1
        have hb2 : pyEndsWith agent ".yml" = false := by
          simpa using h2
        simpa [authNormalizeAgent, hb1, hb2] using
          pyEndsWith_append agent ".yaml"

/-- Witness for C8's amended normalization at a concrete suffix-free name. -/
theorem agent_name_normalization_witness :
    authNormalizeAgent "pirate" = "pirate" ++ ".yaml" :=
  (agent_name_normalization "pirate").1 (by decide) (by decide)

end Cagent
